import Mathlib

/-!
Verification of the dataflow core of this repository against its
natural-language specification.

The development shallowly embeds three source files:

* ops/aggregate.rs        — the COUNT/SUM aggregation operator (namespace Soup);
* noria/server/dataflow/src/ops/project/expression.rs
                          — project expressions and builtin functions (namespace Df);
* noria/server/src/controller/migrate/assignment.rs
                          — domain assignment (namespace Assign).

External crates (chrono, chrono-tz, msql-srv) and repository code that is not
part of the sources (the noria DataType coercion methods, the restriction
structs of the controller) are represented by explicit oracle parameters or by
definitions modelled from the spec, as noted at each definition.
-/

set_option maxRecDepth 4000

namespace Soup

/-- The value type of the old query module: null, a 64-bit number, or text.
Mirrors query::DataType as used by ops/aggregate.rs. -/
inductive DataType where
  | dnone
  | number (n : Int)
  | text (s : String)
deriving DecidableEq, Repr

/-- DataType::is_none. -/
def DataType.is_none : DataType → Bool
  | .dnone => true
  | _ => false

/-- The Into i64 conversion applied to the aggregated column.  The source
conversion is only invoked on numeric values (it aborts otherwise); non-numeric
values are mapped to 0 here and never used by a theorem. -/
def DataType.toI64 : DataType → Int
  | .number n => n
  | _ => 0

/-- ops::Record — a row tagged positive or negative, with a timestamp. -/
inductive Record where
  | positive (r : List DataType) (ts : Int)
  | negative (r : List DataType) (ts : Int)
deriving DecidableEq, Repr

/-- Record::extract, returning (row, is_positive, ts). -/
def Record.extract : Record → List DataType × Bool × Int
  | .positive r ts => (r, true, ts)
  | .negative r ts => (r, false, ts)

/-- Supported aggregation operators (enum Aggregation of aggregate.rs). -/
inductive Aggregation where
  | COUNT
  | SUM
deriving DecidableEq, Repr

/-- Aggregation::zero. -/
def Aggregation.zero : Aggregation → Int
  | .COUNT => 0
  | .SUM => 0

/-- Aggregation::update: combine the current value with a positive or negative
delta. -/
def Aggregation.update : Aggregation → Int → Int → Bool → Int
  | .COUNT, old, _, true => old + 1
  | .COUNT, old, _, false => old - 1
  | .SUM, old, delta, true => old + delta
  | .SUM, old, delta, false => old - delta

/-- The Aggregator node of aggregate.rs.  The graph-wiring fields (src, srcn)
are dropped; op, over and cols are kept.  cols is the number of columns of
this view (group columns plus one). -/
structure Aggregator where
  op : Aggregation
  over : Nat
  cols : Nat
deriving DecidableEq, Repr

/-- The group identifier of a record: all columns except the aggregated one,
in column order (the enumerate/filter of Aggregator::forward). -/
def groupOf (over : Nat) (r : List DataType) : List DataType :=
  (r.enum.filter (fun p => p.1 ≠ over)).map (fun p => p.2)

/-- Append one (value, is_positive, ts) diff to the entry of its group,
creating the entry at the back on first sight (the consolidate HashMap of
Aggregator::forward, with first-occurrence ordering). -/
def insertDiff (key : List DataType) (v : Int × Bool × Int) :
    List (List DataType × List (Int × Bool × Int)) →
    List (List DataType × List (Int × Bool × Int))
  | [] => [(key, [v])]
  | (k, vs) :: rest =>
    if k = key then (k, vs ++ [v]) :: rest else (k, vs) :: insertDiff key v rest

/-- Group the incoming records of Aggregator::forward by their group columns,
collecting (over value, is_positive, ts) diffs per group. -/
def consolidate (over : Nat) (rs : List Record) :
    List (List DataType × List (Int × Bool × Int)) :=
  rs.foldl
    (fun acc rec =>
      let e := rec.extract
      insertDiff (groupOf over e.1) ((e.1.getD over .dnone).toI64, e.2.1, e.2.2) acc)
    []

/-- Fold the per-group diffs over the current value with Aggregation::update. -/
def applyDiffs (op : Aggregation) (cur : Int) (diffs : List (Int × Bool × Int)) : Int :=
  diffs.foldl (fun c d => op.update c d.1 d.2.1) cur

/-- The maximum timestamp of the diffs of a group (diffs.iter().map(ts).max()).
The source unwraps a nonempty maximum; the empty case yields 0 and is never
reached because consolidate only creates nonempty diff lists. -/
def maxTs (diffs : List (Int × Bool × Int)) : Int :=
  match diffs.map (fun d => d.2.2) with
  | [] => 0
  | t :: ts => ts.foldl max t

/-- The per-group body of Aggregator::forward: look up the current aggregate
for the group in the output state db (zero with timestamp 0 when absent), then
emit a Negative for the current row followed by a Positive for the updated
row.  The db argument stands for the BufferedStore lookup keyed by the group
columns, returning the aggregate value and timestamp of the stored row. -/
def forwardGroup (op : Aggregation) (db : List DataType → Option (Int × Int))
    (g : List DataType) (diffs : List (Int × Bool × Int)) : List Record :=
  let c := (db g).getD (op.zero, 0)
  [Record.negative (g ++ [.number c.1]) c.2,
   Record.positive (g ++ [.number (applyDiffs op c.1 diffs)]) (maxTs diffs)]

/-- Aggregator::forward on Update::Records: None on an empty batch, otherwise
the concatenation of the per-group outputs over the consolidated groups. -/
def Aggregator.forward (a : Aggregator) (db : List DataType → Option (Int × Int))
    (rs : List Record) : Option (List Record) :=
  if rs.isEmpty then Option.none
  else some ((consolidate a.over rs).flatMap (fun p => forwardGroup a.op db p.1 p.2))

/-- shortcut::Comparison as used by aggregate.rs: equality against a constant
or against another column. -/
inductive Cmp where
  | equalConst (v : DataType)
  | equalCol (c : Nat)
deriving DecidableEq, Repr

/-- shortcut::Condition. -/
structure Condition where
  column : Nat
  cmp : Cmp
deriving DecidableEq, Repr

/-- Whether a row satisfies a condition. -/
def condMatches (r : List DataType) (c : Condition) : Bool :=
  match c.cmp with
  | .equalConst v => r.getD c.column .dnone == v
  | .equalCol i => r.getD c.column .dnone == r.getD i .dnone

/-- The parameter translation of Aggregator::query: each having condition on
an output column is rewritten to the corresponding input column (the over
column is skipped in the output, so input column indices at or past over are
shifted by one); an empty parameter list becomes None.  Conditions on the
aggregate output column (cols - 1) are rejected by an assertion in the source
and are not translated meaningfully here. -/
def toParams (over : Nat) (having : List Condition) : Option (List Condition) :=
  let ps := having.map (fun c =>
    let col := if c.column ≥ over then c.column + 1 else c.column
    Condition.mk col c.cmp)
  if ps.length = 0 then Option.none else some ps

/-- The rows fetched from the ancestor by Aggregator::query: all parent rows,
filtered by the translated parameters when present. -/
def matchingRows (over : Nat) (parentRows : List (List DataType × Int))
    (q : Option (List Condition)) : List (List DataType × Int) :=
  match q with
  | Option.none => parentRows
  | some having =>
    match toParams over having with
    | Option.none => parentRows
    | some ps => parentRows.filter (fun row => ps.all (condMatches row.1))

/-- One step of the aggregation fold of Aggregator::query: update the entry of
the row group (starting from zero on first sight) and keep the maximum
timestamp. -/
def insertRow (op : Aggregation) (over : Nat)
    (acc : List (List DataType × Int × Int)) (row : List DataType × Int) :
    List (List DataType × Int × Int) :=
  let g := groupOf over row.1
  let v := (row.1.getD over .dnone).toI64
  match acc.lookup g with
  | some cur => acc.map (fun e => if e.1 = g then (g, op.update cur.1 v true, max row.2 cur.2) else e)
  | Option.none => acc ++ [(g, op.update op.zero v true, row.2)]

/-- The group pinned by the having conditions in the empty-consolidate branch
of Aggregator::query: start from all-null group columns and fill in every
column pinned by an equality-constant condition (conditions on the aggregate
column and non-constant comparisons are skipped). -/
def pinGroup (cols : Nat) (having : List Condition) : List DataType :=
  having.foldl
    (fun g c =>
      if c.column = cols - 1 then g
      else
        match c.cmp with
        | .equalConst v => g.set c.column v
        | _ => g)
    (List.replicate (cols - 1) .dnone)

/-- Aggregator::query: aggregate the ancestor rows into groups; when no group
matched and a query was given whose equality conditions pin every group
column, emit a single zero row for the pinned group; append the aggregate
value to each group. -/
def Aggregator.query (a : Aggregator) (parentRows : List (List DataType × Int))
    (q : Option (List Condition)) : List (List DataType × Int) :=
  let rx := matchingRows a.over parentRows q
  let cons := rx.foldl (insertRow a.op a.over) []
  let cons :=
    if cons.isEmpty then
      match q with
      | some having =>
        let group := pinGroup a.cols having
        if group.all (fun v => !v.is_none) then [(group, a.op.zero, 0)] else []
      | Option.none => []
    else cons
  cons.map (fun p => (p.1 ++ [.number p.2.1], p.2.2))

/-- xs occurs as a contiguous segment of ys. -/
def SegmentIn (xs ys : List Record) : Prop :=
  ∃ p s, ys = p ++ xs ++ s

end Soup

namespace Df

/-- chrono NaiveDateTime, treated as an opaque external value. -/
structure NaiveDateTime where
  v : Int
deriving DecidableEq, Repr

/-- chrono NaiveDate, treated as an opaque external value. -/
structure NaiveDate where
  v : Int
deriving DecidableEq, Repr

/-- msql-srv MysqlTime, treated as an opaque external value. -/
structure MysqlTime where
  v : Int
deriving DecidableEq, Repr

/-- chrono-tz Tz, treated as an opaque external value. -/
structure Tz where
  id : Nat
deriving DecidableEq, Repr

/-- chrono DateTime of some Tz, treated as an opaque external value. -/
structure DateTimeTz where
  v : Int
deriving DecidableEq, Repr

/-- chrono LocalResult: a local datetime resolves to a single instant, to
none, or ambiguously to two. -/
inductive LocalResult (α : Type) where
  | single (a : α)
  | nothing
  | ambiguous (a b : α)
deriving DecidableEq, Repr

/-- The nom-sql SqlType variants used by expression.rs. -/
inductive SqlType where
  | timestamp
  | time
  | date
  | text
  | int (w : Nat)
  | unsignedInt (w : Nat)
  | real
deriving DecidableEq, Repr

/-- The noria DataType variants used by expression.rs (the full type also has
big-integer, float and short-text variants that the claims never touch). -/
inductive DataType where
  | none
  | int (n : Int)
  | unsignedInt (n : Nat)
  | text (s : String)
  | timestamp (dt : NaiveDateTime)
  | time (t : MysqlTime)
deriving DecidableEq, Repr

/-- DataType::is_none. -/
def DataType.is_none : DataType → Bool
  | .none => true
  | _ => false

/-- DataType::non_null: Some of the value unless it is null. -/
def DataType.non_null : DataType → Option DataType
  | .none => Option.none
  | v => some v

/-- DataType::is_datetime. Modelled from the spec: the noria data module is
not among the sources; a value is a datetime exactly when it is a timestamp. -/
def DataType.is_datetime : DataType → Bool
  | .timestamp _ => true
  | _ => false

/-- DataType::sql_type. Modelled from the spec: the noria data module is not
among the sources; null carries no SQL type, every other variant maps to its
obvious type. -/
def DataType.sql_type : DataType → Option SqlType
  | .none => Option.none
  | .int _ => some (.int 32)
  | .unsignedInt _ => some (.unsignedInt 32)
  | .text _ => some .text
  | .timestamp _ => some .timestamp
  | .time _ => some .time

/-- The error type of a builtin-function call (the anyhow source field of the
Rust struct is dropped). -/
structure BuiltinFunctionError where
  function : String
  message : String
deriving DecidableEq, Repr

/-- Errors of ProjectExpression::eval. -/
inductive EvalError where
  | invalidColumnIndex (i : Nat)
  | coerceError
  | callError (e : BuiltinFunctionError)
deriving DecidableEq, Repr

/-- Compile-time errors of BuiltinFunction::from_name_and_args (the two
ReadySetError variants it produces). -/
inductive ReadySetError where
  | noSuchFunction (name : String)
  | arityError (name : String)
deriving DecidableEq, Repr

/-- The Cow values eval works with: borrowed record fields or owned values. -/
inductive CowD where
  | borrowed (v : DataType)
  | owned (v : DataType)
deriving DecidableEq, Repr

/-- The underlying value of a Cow. -/
def CowD.val : CowD → DataType
  | .borrowed v => v
  | .owned v => v

/-- The external collaborators of eval, passed as an explicit oracle: the
noria DataType coercion and conversion methods (noria/noria/src, not among the
sources) and the chrono / chrono-tz / msql-srv library functions.  Every
theorem below quantifies over this environment or instantiates it concretely. -/
structure Env where
  coerce : DataType → SqlType → Except Unit DataType
  parseTz : String → Option Tz
  fromLocalDatetime : Tz → NaiveDateTime → LocalResult DateTimeTz
  withTimezoneNaiveLocal : DateTimeTz → Tz → NaiveDateTime
  dtToNaiveDateTime : DataType → NaiveDateTime
  dtToNaiveDate : DataType → NaiveDate
  dtToStr : DataType → String
  dtToMysqlTime : DataType → MysqlTime
  weekdayFromSunday : NaiveDate → Nat
  monthOfDate : NaiveDate → Nat
  subDatetimes : NaiveDateTime → NaiveDateTime → MysqlTime
  subTimes : MysqlTime → MysqlTime → MysqlTime
  addTimeToDatetime : MysqlTime → NaiveDateTime → NaiveDateTime
  addTimes : MysqlTime → MysqlTime → MysqlTime
  dtAdd : DataType → DataType → DataType
  dtSub : DataType → DataType → DataType
  dtMul : DataType → DataType → DataType
  dtDiv : DataType → DataType → DataType

/-- The error constructor of convert_tz. -/
def mkConvertTzErr (message : String) : BuiltinFunctionError :=
  { function := "convert_tz", message := message }

/-- convert_tz of expression.rs: parse both timezone names, resolve the local
datetime in the source timezone, and convert to the target timezone; parse
failures and non-single local resolutions are errors. -/
def convert_tz (env : Env) (datetime : NaiveDateTime) (src target : String) :
    Except BuiltinFunctionError NaiveDateTime :=
  match env.parseTz src with
  | Option.none => .error (mkConvertTzErr "Failed to parse the source timezone")
  | some src_tz =>
    match env.parseTz target with
    | Option.none => .error (mkConvertTzErr "Failed to parse the target timezone")
    | some target_tz =>
      match env.fromLocalDatetime src_tz datetime with
      | .single dt => .ok (env.withTimezoneNaiveLocal dt target_tz)
      | .nothing =>
        .error (mkConvertTzErr "Failed to transform the datetime to a different timezone")
      | .ambiguous _ _ =>
        .error (mkConvertTzErr "Failed to transform the datetime to a different timezone")

/-- day_of_week of expression.rs (the chrono weekday computation is the
environment oracle). -/
def day_of_week (env : Env) (date : NaiveDate) : Nat :=
  env.weekdayFromSunday date

/-- month of expression.rs. -/
def month (env : Env) (date : NaiveDate) : Nat :=
  env.monthOfDate date

/-- timediff_datetimes of expression.rs. -/
def timediff_datetimes (env : Env) (time1 time2 : NaiveDateTime) : MysqlTime :=
  env.subDatetimes time1 time2

/-- timediff_times of expression.rs. -/
def timediff_times (env : Env) (time1 time2 : MysqlTime) : MysqlTime :=
  env.subTimes time1 time2

/-- addtime_datetime of expression.rs: time2.add(time1). -/
def addtime_datetime (env : Env) (time1 : NaiveDateTime) (time2 : MysqlTime) : NaiveDateTime :=
  env.addTimeToDatetime time2 time1

/-- addtime_times of expression.rs. -/
def addtime_times (env : Env) (time1 time2 : MysqlTime) : MysqlTime :=
  env.addTimes time1 time2

/-- The get_time_or_default macro: coerce to Timestamp, else to Time, else
null. -/
def getTimeOrDefault (env : Env) (v : DataType) : DataType :=
  match env.coerce v .timestamp with
  | .ok w => w
  | .error _ =>
    match env.coerce v .time with
    | .ok w => w
    | .error _ => .none

/-- nom-sql ArithmeticOperator. -/
inductive ArithmeticOperator where
  | add
  | subtract
  | multiply
  | divide
deriving DecidableEq, Repr

mutual

/-- The builtin functions of expression.rs. -/
inductive BuiltinFunction where
  | convertTZ (a b c : ProjectExpression)
  | dayOfWeek (a : ProjectExpression)
  | ifNull (a b : ProjectExpression)
  | month (a : ProjectExpression)
  | timediff (a b : ProjectExpression)
  | addtime (a b : ProjectExpression)

/-- The projection expression AST of expression.rs. -/
inductive ProjectExpression where
  | column (c : Nat)
  | literal (dt : DataType)
  | op (o : ArithmeticOperator) (l r : ProjectExpression)
  | cast (e : ProjectExpression) (ty : SqlType)
  | call (f : BuiltinFunction)

end

/-- BuiltinFunction::from_name_and_args: dispatch on the six supported names,
drawing the needed arguments from the iterator (extra arguments are ignored);
a missing argument is an arity error, an unknown name has no such function. -/
def BuiltinFunction.from_name_and_args (name : String) (args : List ProjectExpression) :
    Except ReadySetError BuiltinFunction :=
  match name with
  | "convert_tz" =>
    match args with
    | a1 :: a2 :: a3 :: _ => .ok (.convertTZ a1 a2 a3)
    | _ => .error (.arityError "convert_tz")
  | "dayofweek" =>
    match args with
    | a1 :: _ => .ok (.dayOfWeek a1)
    | _ => .error (.arityError "dayofweek")
  | "ifnull" =>
    match args with
    | a1 :: a2 :: _ => .ok (.ifNull a1 a2)
    | _ => .error (.arityError "ifnull")
  | "month" =>
    match args with
    | a1 :: _ => .ok (.month a1)
    | _ => .error (.arityError "month")
  | "timediff" =>
    match args with
    | a1 :: a2 :: _ => .ok (.timediff a1 a2)
    | _ => .error (.arityError "timediff")
  | "addtime" =>
    match args with
    | a1 :: a2 :: _ => .ok (.addtime a1 a2)
    | _ => .error (.arityError "addtime")
  | _ => .error (.noSuchFunction name)

/-- ProjectExpression::eval: evaluate an expression against a source record.
Column lookups can fail with InvalidColumnIndex, casts propagate coercion
errors, builtin calls swallow coercion and conversion failures into null as
in the source. -/
def eval (env : Env) : ProjectExpression → List DataType → Except EvalError CowD
  | .column c, record =>
    match record.get? c with
    | some v => .ok (.borrowed v)
    | Option.none => .error (.invalidColumnIndex c)
  | .literal dt, _ => .ok (.owned dt)
  | .op o l r, record => do
    let lv ← eval env l record
    let rv ← eval env r record
    match lv.val.non_null, rv.val.non_null with
    | some a, some b =>
      match o with
      | .add => .ok (.owned (env.dtAdd a b))
      | .subtract => .ok (.owned (env.dtSub a b))
      | .multiply => .ok (.owned (env.dtMul a b))
      | .divide => .ok (.owned (env.dtDiv a b))
    | _, _ => .ok (.owned .none)
  | .cast e ty, record => do
    let v ← eval env e record
    match v with
    | .borrowed val =>
      match env.coerce val ty with
      | .ok w => .ok (.owned w)
      | .error _ => .error .coerceError
    | .owned val =>
      match val.non_null with
      | Option.none => .ok (.owned .none)
      | some w =>
        match env.coerce w ty with
        | .ok w2 => .ok (.owned w2)
        | .error _ => .error .coerceError
  | .call (.convertTZ arg1 arg2 arg3), record => do
    let param1 ← eval env arg1 record
    let param2 ← eval env arg2 record
    let param3 ← eval env arg3 record
    match env.coerce param1.val .timestamp with
    | .error _ => .ok (.owned .none)
    | .ok param1_cast =>
      match env.coerce param2.val .text with
      | .error _ => .ok (.owned .none)
      | .ok param2_cast =>
        match env.coerce param3.val .text with
        | .error _ => .ok (.owned .none)
        | .ok param3_cast =>
          match convert_tz env (env.dtToNaiveDateTime param1_cast)
              (env.dtToStr param2_cast) (env.dtToStr param3_cast) with
          | .ok v => .ok (.owned (.timestamp v))
          | .error _ => .ok (.owned .none)
  | .call (.dayOfWeek arg), record => do
    let param ← eval env arg record
    match env.coerce param.val .date with
    | .error _ => .ok (.owned .none)
    | .ok param_cast =>
      .ok (.owned (.int (Int.ofNat (day_of_week env (env.dtToNaiveDate param_cast)))))
  | .call (.ifNull arg1 arg2), record => do
    let param1 ← eval env arg1 record
    let param2 ← eval env arg2 record
    if param1.val.is_none then .ok param2 else .ok param1
  | .call (.month arg), record => do
    let param ← eval env arg record
    match env.coerce param.val .date with
    | .error _ => .ok (.owned .none)
    | .ok param_cast =>
      match param_cast.non_null with
      | Option.none => .ok (.owned .none)
      | some w => .ok (.owned (.unsignedInt (month env (env.dtToNaiveDate w))))
  | .call (.timediff arg1 arg2), record => do
    let param1 ← eval env arg1 record
    let param2 ← eval env arg2 record
    let time_param1 := getTimeOrDefault env param1.val
    let time_param2 := getTimeOrDefault env param2.val
    if time_param1.is_none ||
        (Option.filter (fun p => p.1 == p.2)
          (time_param1.sql_type.bind
            (fun st => time_param2.sql_type.map (fun st2 => (st, st2))))).isNone then
      .ok (.owned .none)
    else if time_param1.is_datetime then
      .ok (.owned (.time (timediff_datetimes env (env.dtToNaiveDateTime time_param1)
        (env.dtToNaiveDateTime time_param2))))
    else
      .ok (.owned (.time (timediff_times env (env.dtToMysqlTime time_param1)
        (env.dtToMysqlTime time_param2))))
  | .call (.addtime arg1 arg2), record => do
    let param1 ← eval env arg1 record
    let param2 ← eval env arg2 record
    let time_param2 := getTimeOrDefault env param2.val
    if time_param2.is_datetime then .ok (.owned .none)
    else
      let time_param1 := getTimeOrDefault env param1.val
      if time_param1.is_datetime then
        .ok (.owned (.timestamp (addtime_datetime env (env.dtToNaiveDateTime time_param1)
          (env.dtToMysqlTime time_param2))))
      else
        .ok (.owned (.time (addtime_times env (env.dtToMysqlTime time_param1)
          (env.dtToMysqlTime time_param2))))

end Df

namespace Assign

/-- A dataflow graph node as seen by domain assignment: its kind flags, name,
sharding (Option.none means unsharded, some k means sharded k ways) and the
already-assigned domain, when any.  The dataflow Node type itself is not among
the sources; only the accessors used by assignment.rs are modelled. -/
structure Node where
  name : String
  isShardMerger : Bool := false
  isReader : Bool := false
  isBase : Bool := false
  isSource : Bool := false
  isSharder : Bool := false
  shardedBy : Option Nat := Option.none
  domain : Option Nat := Option.none
deriving DecidableEq, Repr, Inhabited

/-- The placement restriction of a (node, shard) pair.  Modelled from the
spec: DomainPlacementRestriction lives in the controller module, which is not
among the sources; per the spec it carries the worker_volume label. -/
structure DomainPlacementRestriction where
  worker_volume : Option String
deriving DecidableEq, Repr

/-- The restriction map keyed by (node name, shard), as an association list. -/
def RestrMap : Type :=
  List ((String × Nat) × DomainPlacementRestriction)

/-- HashMap::get on the restriction map. -/
def lookupRestr (restr : RestrMap) (name : String) (shard : Nat) :
    Option DomainPlacementRestriction :=
  (List.find? (fun e => e.1 = (name, shard)) restr).map (fun e => e.2)

/-- The graph: a node arena plus (parent, child) edges. -/
structure Graph where
  nodes : List Node
  edges : List (Nat × Nat)
deriving DecidableEq, Repr

/-- The node stored at an index (a default node for out-of-range indices). -/
def Graph.node (g : Graph) (i : Nat) : Node :=
  g.nodes.getD i default

/-- neighbors_directed in the Incoming direction. -/
def Graph.parentsOf (g : Graph) (i : Nat) : List Nat :=
  (g.edges.filter (fun e => e.2 = i)).map (fun e => e.1)

/-- neighbors_directed in the Outgoing direction. -/
def Graph.childrenOf (g : Graph) (i : Nat) : List Nat :=
  (g.edges.filter (fun e => e.1 = i)).map (fun e => e.2)

/-- next_domain of assignment.rs: allocate the current counter value and
advance it. -/
def nextDomain (nd : Nat) : Nat × Nat :=
  (nd, nd + 1)

/-- One round of the downward walk of the base-node branch: keep every
frontier member that is neither a sharder nor a shard merger and extend the
next frontier with its children. Returns (kept, next frontier). -/
def downRound (g : Graph) : List Nat → List Nat × List Nat
  | [] => ([], [])
  | cni :: rest =>
    let r := downRound g rest
    let c := g.node cni
    if c.isSharder || c.isShardMerger then r
    else (cni :: r.1, g.childrenOf cni ++ r.2)

/-- The downward walk of the base-node branch, collecting the descendants that
share the sharding of the base (children_same_shard).  The source loop
terminates on the acyclic graph; here a fuel bound on the number of rounds
plays that role. -/
def downWalk (g : Graph) : Nat → List Nat → List Nat → List Nat
  | 0, _, acc => acc
  | _, [], acc => acc
  | fuel + 1, frontier, acc =>
    let r := downRound g frontier
    downWalk g fuel r.2 (acc ++ r.1)

/-- One round of the upward friendly-base search: the assigned-base hit, if
the round finds one (error case, matching the labelled break of the source),
or the next frontier.  The starting node itself, sources, sharders and shard
mergers are skipped; a base without a domain is skipped; any other node
contributes its parents to the next frontier. -/
def upRound (g : Graph) (node : Nat) : List Nat → Except Nat (List Nat)
  | [] => .ok []
  | pni :: rest =>
    if pni = node then upRound g node rest
    else
      let p := g.node pni
      if p.isSource || p.isSharder || p.isShardMerger then upRound g node rest
      else if p.isBase then
        if p.domain.isSome then .error pni else upRound g node rest
      else
        match upRound g node rest with
        | .error f => .error f
        | .ok next => .ok (g.parentsOf pni ++ next)

/-- The upward walk of the base-node branch: search round by round for a base
with an assigned domain, starting from children_same_shard. -/
def upWalk (g : Graph) (node : Nat) : Nat → List Nat → Option Nat
  | 0, _ => Option.none
  | _, [] => Option.none
  | fuel + 1, frontier =>
    match upRound g node frontier with
    | .error f => some f
    | .ok next => upWalk g node fuel next

/-- The per-shard compatibility of two placement restrictions (the match of
the compatible closure of assignment.rs): both restricted requires equal
worker_volume labels; a restricted new node never joins an unrestricted
domain; an unrestricted new node joins anything. -/
def restrCompat :
    Option DomainPlacementRestriction → Option DomainPlacementRestriction → Bool
  | some a, some b => a.worker_volume == b.worker_volume
  | some _, Option.none => false
  | Option.none, some _ => true
  | Option.none, Option.none => true

/-- The compatible closure of the base-node branch: every shard below the
minimum of the two shard counts must have compatible restrictions. -/
def compatibleRestr (restr : RestrMap) (new_node existing_node : Node) : Bool :=
  let num_shards := min (new_node.shardedBy.getD 1) (existing_node.shardedBy.getD 1)
  (List.range num_shards).all (fun i =>
    restrCompat (lookupRestr restr new_node.name i) (lookupRestr restr existing_node.name i))

/-- The any_parents walker of assignment.rs: a depth-first search over
ancestors from an initial stack, skipping sources, looking for a node whose
domain equals the candidate.  Fuel bounds the source loop, which terminates on
the acyclic graph. -/
def anyParents (g : Graph) (candidate : Nat) : Nat → List Nat → Bool
  | 0, _ => false
  | _, [] => false
  | fuel + 1, p :: stack =>
    if (g.node p).isSource then anyParents g candidate fuel stack
    else if (g.node p).domain == some candidate then true
    else anyParents g candidate fuel (stack ++ g.parentsOf p)

/-- The fuel given to the graph walks: enough rounds and steps for the acyclic
graphs the source operates on. -/
def walkFuel (g : Graph) : Nat :=
  (g.nodes.length + 1) * (g.edges.length + 1)

/-- The a-b-a check of assignment.rs: starting from the parents that already
lie in a different domain than the candidate, does some further ancestor lie
in the candidate domain again? -/
def abaCheck (g : Graph) (node candidate : Nat) : Bool :=
  anyParents g candidate (walkFuel g)
    ((g.parentsOf node).filter
      (fun p => (g.node p).domain.isSome && ((g.node p).domain != some candidate)))

/-- The parents loop of the any-other-node branch: take the first parent that
is neither a sharder nor the source and has a domain; accept its domain unless
the a-b-a check rejects it, in which case continue with the later parents. -/
def parentLoop (g : Graph) (node : Nat) : List Nat → Option Nat
  | [] => Option.none
  | p :: rest =>
    let pn := g.node p
    if pn.isSharder then parentLoop g node rest
    else if pn.isSource then parentLoop g node rest
    else
      match pn.domain with
      | Option.none => parentLoop g node rest
      | some candidate =>
        if abaCheck g node candidate then parentLoop g node rest
        else some candidate

/-- The inner sibling scan: the first sibling with a domain, matching
unsharded-ness with the node, that passes the a-b-a check. -/
def siblingFind (g : Graph) (node : Nat) : List Nat → Option Nat
  | [] => Option.none
  | s :: rest =>
    let sn := g.node s
    match sn.domain with
    | Option.none => siblingFind g node rest
    | some candidate =>
      if (sn.shardedBy.isNone != (g.node node).shardedBy.isNone) then
        siblingFind g node rest
      else if abaCheck g node candidate then siblingFind g node rest
      else some candidate

/-- The outer sibling loop: for every parent in turn, scan its children; a hit
from a later parent overwrites an earlier one, exactly as the source loop
(whose inner break leaves the outer loop running). -/
def siblingLoop (g : Graph) (node : Nat) (parents : List Nat) : Option Nat :=
  parents.foldl
    (fun acc pni =>
      match siblingFind g node (g.childrenOf pni) with
      | some d => some d
      | Option.none => acc)
    Option.none

/-- The per-node domain decision of assign: returns the assigned domain and
the updated ndomains counter.  Shard mergers, readers and boundary nodes get a
fresh domain; a base reuses the domain of a compatible friendly base or gets a
fresh one; any other node takes the first parent domain passing the a-b-a
check, else a sibling domain, else a fresh one. -/
def assignNode (g : Graph) (restr : RestrMap) (node : Nat) (nd : Nat) : Nat × Nat :=
  let n := g.node node
  if n.isShardMerger then nextDomain nd
  else if n.isReader then nextDomain nd
  else if n.isBase then
    match upWalk g node (walkFuel g) (downWalk g (walkFuel g) (g.childrenOf node) []) with
    | some fbi =>
      if compatibleRestr restr n (g.node fbi) then ((g.node fbi).domain.getD 0, nd)
      else nextDomain nd
    | Option.none => nextDomain nd
  else if n.name.startsWith "BOUNDARY_" then nextDomain nd
  else
    match parentLoop g node (g.parentsOf node) with
    | some d => (d, nd)
    | Option.none =>
      match siblingLoop g node (g.parentsOf node) with
      | some d => (d, nd)
      | Option.none => nextDomain nd

/-- Record an assignment in the graph (Node::add_to). -/
def Graph.setDomain (g : Graph) (i : Nat) (d : Nat) : Graph :=
  { g with nodes := g.nodes.set i { g.nodes.getD i default with domain := some d } }

/-- The assign pass: walk the topological list, decide each domain with
assignNode and record it. -/
def assign (g : Graph) (restr : RestrMap) (topo : List Nat) (nd : Nat) : Graph × Nat :=
  topo.foldl
    (fun st node =>
      let r := assignNode st.1 restr node st.2
      (st.1.setDomain node r.1, r.2))
    (g, nd)

/-- The compatibility predicate as the spec words it: for every shard below
the minimum of the two shard counts, when both nodes carry a restriction for
that shard the worker_volume labels must be equal.  Stated for comparison with
compatibleRestr, which the source implements. -/
def specCompatible (restr : RestrMap) (new_node existing_node : Node) : Bool :=
  let num_shards := min (new_node.shardedBy.getD 1) (existing_node.shardedBy.getD 1)
  (List.range num_shards).all (fun i =>
    match lookupRestr restr new_node.name i, lookupRestr restr existing_node.name i with
    | some a, some b => a.worker_volume == b.worker_volume
    | _, _ => true)

end Assign

/-- Equality of Except values is decidable when both components are. -/
instance {e a : Type} [DecidableEq e] [DecidableEq a] : DecidableEq (Except e a)
  | .error x, .error y =>
    if h : x = y then isTrue (by rw [h]) else isFalse (fun c => h (Except.error.inj c))
  | .error _, .ok _ => isFalse (fun c => Except.noConfusion c)
  | .ok _, .error _ => isFalse (fun c => Except.noConfusion c)
  | .ok x, .ok y =>
    if h : x = y then isTrue (by rw [h]) else isFalse (fun c => h (Except.ok.inj c))

/-- A concrete evaluation environment used by witnesses and counterexamples:
coercion fails exactly on the text value bad, the only known timezone is UTC,
local datetimes always resolve uniquely, and the library arithmetic is fixed
to simple total functions. -/
def Df.testEnv : Df.Env where
  coerce := fun v _ => if v = .text "bad" then .error () else .ok v
  parseTz := fun s => if s = "UTC" then some ⟨0⟩ else Option.none
  fromLocalDatetime := fun _ dt => .single ⟨dt.v⟩
  withTimezoneNaiveLocal := fun d _ => ⟨d.v⟩
  dtToNaiveDateTime := fun v => match v with | .timestamp t => t | _ => ⟨0⟩
  dtToNaiveDate := fun _ => ⟨0⟩
  dtToStr := fun v => match v with | .text s => s | _ => ""
  dtToMysqlTime := fun v => match v with | .time t => t | _ => ⟨0⟩
  weekdayFromSunday := fun _ => 2
  monthOfDate := fun _ => 3
  subDatetimes := fun _ _ => ⟨1⟩
  subTimes := fun _ _ => ⟨1⟩
  addTimeToDatetime := fun _ d => d
  addTimes := fun _ _ => ⟨2⟩
  dtAdd := fun _ _ => .none
  dtSub := fun _ _ => .none
  dtMul := fun _ _ => .none
  dtDiv := fun _ _ => .none

/-- A graph with two bases sharing a child, for exercising the friendly-base
search: node 0 is base A with domain 0, node 1 is base B awaiting assignment,
node 2 is their common non-sharded child. -/
def Assign.baseGraph : Assign.Graph where
  nodes :=
    [{ name := "A", isBase := true, domain := some 0 },
     { name := "B", isBase := true },
     { name := "C" }]
  edges := [(0, 2), (1, 2)]

/-- Restrictions pinning base B shard 0 to a worker volume, with base A
unrestricted. -/
def Assign.baseRestr : Assign.RestrMap :=
  [(("B", 0), { worker_volume := some "v1" })]

/-- A single isolated internal node, for the other-node assignment branch. -/
def Assign.loneGraph : Assign.Graph where
  nodes := [{ name := "n" }]
  edges := []

/-- A single reader node, for the fresh-domain branch. -/
def Assign.readerGraph : Assign.Graph where
  nodes := [{ name := "r", isReader := true }]
  edges := []

/-- A single base node with no surroundings, for the no-friendly-base branch. -/
def Assign.soloBaseGraph : Assign.Graph where
  nodes := [{ name := "b", isBase := true }]
  edges := []

/-- Helper: the image of a list member under the per-element function occurs
as a contiguous segment of the flattened output. -/
theorem segmentIn_flatMap {α : Type} (f : α → List Soup.Record) (l : List α) (x : α)
    (hx : x ∈ l) : Soup.SegmentIn (f x) (l.flatMap f) := by
  induction l with
  | nil => cases hx
  | cons y ys ih =>
    rcases List.mem_cons.mp hx with h | h
    · subst h
      exact ⟨[], ys.flatMap f, by simp⟩
    · obtain ⟨p, s, hps⟩ := ih h
      exact ⟨f y ++ p, s, by simp [hps]⟩

/-- C1 (amended): Aggregator::forward emits, for every consolidated group of
the incoming batch, a Negative carrying the prior aggregate — the stored row
when the group has one, otherwise the zero value with timestamp 0 — directly
followed by a Positive carrying the updated aggregate.  The claim that a group
without a prior aggregate gets only the Positive does not hold (see the
counterexample): the zero row is revoked even on first sight of a group. -/
theorem C1_forward_pair (a : Soup.Aggregator) (db : List Soup.DataType → Option (Int × Int))
    (rs out : List Soup.Record) (g : List Soup.DataType) (diffs : List (Int × Bool × Int))
    (hf : a.forward db rs = some out)
    (hm : (g, diffs) ∈ Soup.consolidate a.over rs) :
    Soup.forwardGroup a.op db g diffs =
      [Soup.Record.negative (g ++ [.number ((db g).getD (a.op.zero, 0)).1])
        ((db g).getD (a.op.zero, 0)).2,
       Soup.Record.positive
        (g ++ [.number (Soup.applyDiffs a.op ((db g).getD (a.op.zero, 0)).1 diffs)])
        (Soup.maxTs diffs)] ∧
    Soup.SegmentIn (Soup.forwardGroup a.op db g diffs) out := by
  constructor
  · rfl
  · have hout : out =
        (Soup.consolidate a.over rs).flatMap (fun p => Soup.forwardGroup a.op db p.1 p.2) := by
      by_cases he : rs.isEmpty
      · simp [Soup.Aggregator.forward, he] at hf
      · simp [Soup.Aggregator.forward, he] at hf
        exact hf.symm
    rw [hout]
    exact segmentIn_flatMap (fun p => Soup.forwardGroup a.op db p.1 p.2) _ (g, diffs) hm

/-- C1 witness: a SUM group with a stored prior aggregate 3 at timestamp 7
receives a positive delta 5; the forwarded batch holds the Negative for 3 and
the Positive for 8 adjacently. -/
theorem C1_forward_pair_witness :
    Soup.forwardGroup .SUM
        (fun g => if g = [Soup.DataType.number 2] then some ((3 : Int), (7 : Int)) else Option.none)
        [Soup.DataType.number 2] [(5, true, 9)] =
      [Soup.Record.negative [.number 2, .number 3] 7,
       Soup.Record.positive [.number 2, .number 8] 9] ∧
    Soup.SegmentIn
      (Soup.forwardGroup .SUM
        (fun g => if g = [Soup.DataType.number 2] then some ((3 : Int), (7 : Int)) else Option.none)
        [Soup.DataType.number 2] [(5, true, 9)])
      [Soup.Record.negative [.number 2, .number 3] 7,
       Soup.Record.positive [.number 2, .number 8] 9] := by
  have h := C1_forward_pair ⟨.SUM, 1, 2⟩
    (fun g => if g = [Soup.DataType.number 2] then some ((3 : Int), (7 : Int)) else Option.none)
    [Soup.Record.positive [.number 2, .number 5] 9]
    [Soup.Record.negative [.number 2, .number 3] 7,
     Soup.Record.positive [.number 2, .number 8] 9]
    [Soup.DataType.number 2] [(5, true, 9)] (by decide) (by decide)
  exact ⟨by decide, h.2⟩

/-- C1 counterexample: the first record of a fresh group (the state lookup
returns nothing for every group) still produces a Negative — for the zero row
— before the Positive, refuting the claim that such a group gets only the
Positive and no Negative. -/
theorem C1_counterexample :
    Soup.Aggregator.forward ⟨.COUNT, 1, 2⟩ (fun _ => Option.none)
        [Soup.Record.positive [.number 1, .number 1] 1] =
      some [Soup.Record.negative [.number 1, .number 0] 0,
            Soup.Record.positive [.number 1, .number 1] 1] ∧
    Soup.Record.negative [.number 1, .number 0] 0 ∈
      [Soup.Record.negative [.number 1, .number 0] 0,
       Soup.Record.positive [.number 1, .number 1] 1] := by
  exact ⟨by decide, by simp⟩

/-- C2 (amended): when no ancestor row matches the query parameters, the
aggregation query yields no row — unless every group column is pinned by an
equality constant in the having conditions, in which case a single fabricated
zero row for the pinned group is emitted.  The unqualified claim that an empty
group never yields a row does not hold (see the counterexample). -/
theorem C2_query_empty_group (a : Soup.Aggregator)
    (parentRows : List (List Soup.DataType × Int)) (q : Option (List Soup.Condition))
    (h : Soup.matchingRows a.over parentRows q = []) :
    a.query parentRows q =
      match q with
      | Option.none => []
      | some having =>
        if (Soup.pinGroup a.cols having).all (fun v => !v.is_none) then
          [(Soup.pinGroup a.cols having ++ [.number a.op.zero], 0)]
        else [] := by
  cases q with
  | none => simp [Soup.Aggregator.query, h]
  | some having =>
    by_cases hall : (Soup.pinGroup a.cols having).all (fun v => !v.is_none) <;>
      simp [Soup.Aggregator.query, h, hall]

/-- C2 witness: a query with no conditions over an empty ancestor yields no
rows. -/
theorem C2_query_empty_group_witness :
    Soup.matchingRows 1 ([] : List (List Soup.DataType × Int)) Option.none = [] ∧
    Soup.Aggregator.query ⟨.COUNT, 1, 2⟩ [] Option.none = [] := by
  refine ⟨rfl, ?_⟩
  have h := C2_query_empty_group ⟨.COUNT, 1, 2⟩ [] Option.none rfl
  simpa using h

/-- C2 counterexample: with ancestor rows only for groups 1 and 2, a query
pinning the group column to 100 — a group with no input rows — returns the
fabricated zero row (100, 0) instead of no row, refuting the claim. -/
theorem C2_counterexample :
    Soup.Aggregator.query ⟨.COUNT, 1, 2⟩
        [([.number 1, .number 1], 0), ([.number 2, .number 1], 1), ([.number 2, .number 2], 2)]
        (some [⟨0, .equalConst (.number 100)⟩]) =
      [([Soup.DataType.number 100, Soup.DataType.number 0], 0)] ∧
    ([([.number 1, .number 1], 0), ([.number 2, .number 1], 1),
        ([.number 2, .number 2], 2)] : List (List Soup.DataType × Int)).filter
      (fun row => Soup.groupOf 1 row.1 = [Soup.DataType.number 100]) = [] := by
  exact ⟨by decide, by decide⟩

/-- C9: delta symmetry of the aggregation kernel — applying a delta positively
and then negatively restores the previous aggregate, both at the level of
Aggregation::update and through the per-group diff fold of forward. -/
theorem C9_delta_symmetry (op : Soup.Aggregation) (v d cur t1 t2 : Int) :
    op.update (op.update v d true) d false = v ∧
    Soup.applyDiffs op cur [(d, true, t1), (d, false, t2)] = cur := by
  cases op <;> constructor <;> simp [Soup.Aggregation.update, Soup.applyDiffs]

/-- C5: from_name_and_args rejects every name outside the six builtins with
NoSuchFunction, rejects too-short argument lists with ArityError (3 arguments
for convert_tz, 1 for dayofweek and month, 2 for ifnull, timediff and
addtime), and builds the matching variant when enough arguments are given. -/
theorem C5_from_name_and_args :
    (∀ (name : String) (args : List Df.ProjectExpression),
      name ∉ ["convert_tz", "dayofweek", "ifnull", "month", "timediff", "addtime"] →
      Df.BuiltinFunction.from_name_and_args name args = .error (.noSuchFunction name)) ∧
    (∀ args, args.length < 3 →
      Df.BuiltinFunction.from_name_and_args "convert_tz" args = .error (.arityError "convert_tz")) ∧
    (∀ args, args.length < 1 →
      Df.BuiltinFunction.from_name_and_args "dayofweek" args = .error (.arityError "dayofweek")) ∧
    (∀ args, args.length < 2 →
      Df.BuiltinFunction.from_name_and_args "ifnull" args = .error (.arityError "ifnull")) ∧
    (∀ args, args.length < 1 →
      Df.BuiltinFunction.from_name_and_args "month" args = .error (.arityError "month")) ∧
    (∀ args, args.length < 2 →
      Df.BuiltinFunction.from_name_and_args "timediff" args = .error (.arityError "timediff")) ∧
    (∀ args, args.length < 2 →
      Df.BuiltinFunction.from_name_and_args "addtime" args = .error (.arityError "addtime")) ∧
    (∀ a1 a2 a3 rest, Df.BuiltinFunction.from_name_and_args "convert_tz" (a1 :: a2 :: a3 :: rest) =
      .ok (.convertTZ a1 a2 a3)) ∧
    (∀ a1 rest, Df.BuiltinFunction.from_name_and_args "dayofweek" (a1 :: rest) =
      .ok (.dayOfWeek a1)) ∧
    (∀ a1 a2 rest, Df.BuiltinFunction.from_name_and_args "ifnull" (a1 :: a2 :: rest) =
      .ok (.ifNull a1 a2)) ∧
    (∀ a1 rest, Df.BuiltinFunction.from_name_and_args "month" (a1 :: rest) =
      .ok (.month a1)) ∧
    (∀ a1 a2 rest, Df.BuiltinFunction.from_name_and_args "timediff" (a1 :: a2 :: rest) =
      .ok (.timediff a1 a2)) ∧
    (∀ a1 a2 rest, Df.BuiltinFunction.from_name_and_args "addtime" (a1 :: a2 :: rest) =
      .ok (.addtime a1 a2)) := by
  refine ⟨?_, ?_, ?_, ?_, ?_, ?_, ?_, ?_, ?_, ?_, ?_, ?_, ?_⟩
  · intro name args h
    unfold Df.BuiltinFunction.from_name_and_args
    split <;> simp_all
  · intro args h
    rcases args with _ | ⟨a1, _ | ⟨a2, _ | ⟨a3, rest⟩⟩⟩
    · rfl
    · rfl
    · rfl
    · simp at h
      omega
  · intro args h
    rcases args with _ | ⟨a1, rest⟩
    · rfl
    · simp at h
  · intro args h
    rcases args with _ | ⟨a1, _ | ⟨a2, rest⟩⟩
    · rfl
    · rfl
    · simp at h
      omega
  · intro args h
    rcases args with _ | ⟨a1, rest⟩
    · rfl
    · simp at h
  · intro args h
    rcases args with _ | ⟨a1, _ | ⟨a2, rest⟩⟩
    · rfl
    · rfl
    · simp at h
      omega
  · intro args h
    rcases args with _ | ⟨a1, _ | ⟨a2, rest⟩⟩
    · rfl
    · rfl
    · simp at h
      omega
  · intro a1 a2 a3 rest
    rfl
  · intro a1 rest
    rfl
  · intro a1 a2 rest
    rfl
  · intro a1 rest
    rfl
  · intro a1 a2 rest
    rfl
  · intro a1 a2 rest
    rfl

/-- C5 witness: an unknown name, a too-short convert_tz call and a complete
ifnull call behave as the theorem states. -/
theorem C5_from_name_and_args_witness :
    Df.BuiltinFunction.from_name_and_args "frobnicate" [] =
      .error (.noSuchFunction "frobnicate") ∧
    Df.BuiltinFunction.from_name_and_args "convert_tz" [.column 0] =
      .error (.arityError "convert_tz") ∧
    Df.BuiltinFunction.from_name_and_args "ifnull" [.column 0, .column 1] =
      .ok (.ifNull (.column 0) (.column 1)) := by
  refine ⟨?_, ?_, ?_⟩
  · exact C5_from_name_and_args.1 "frobnicate" [] (by decide)
  · exact C5_from_name_and_args.2.1 [.column 0] (by decide)
  · exact C5_from_name_and_args.2.2.2.2.2.2.2.2.2.1 (.column 0) (.column 1) []

/-- C10: evaluating a column reference is total — an in-range index returns
the record field, an out-of-range index returns InvalidColumnIndex and never
aborts. -/
theorem C10_column_total (env : Df.Env) (record : List Df.DataType) (c : Nat) :
    (∀ h : c < record.length,
      Df.eval env (.column c) record = .ok (.borrowed (record.get ⟨c, h⟩))) ∧
    (record.length ≤ c →
      Df.eval env (.column c) record = .error (.invalidColumnIndex c)) := by
  constructor
  · intro h
    have hg : record[c]? = some record[c] := List.getElem?_eq_getElem h
    simp [Df.eval, hg]
  · intro h
    have hg : record[c]? = Option.none := List.getElem?_eq_none h
    simp [Df.eval, hg]

/-- C10 witness: on a one-field record, column 0 evaluates to the field and
column 7 to InvalidColumnIndex 7. -/
theorem C10_column_total_witness :
    Df.eval Df.testEnv (.column 0) [Df.DataType.int 5] = .ok (.borrowed (.int 5)) ∧
    Df.eval Df.testEnv (.column 7) [Df.DataType.int 5] = .error (.invalidColumnIndex 7) := by
  constructor
  · exact (C10_column_total Df.testEnv [Df.DataType.int 5] 0).1 (by decide)
  · exact (C10_column_total Df.testEnv [Df.DataType.int 5] 7).2 (by decide)

/-- C3: for a convert_tz call whose arguments evaluate and coerce
successfully, eval never returns an error: an unparsable source or target
timezone, or a local datetime that does not resolve to a single instant,
yields Ok(null), and a successful conversion yields the timestamp converted
through the source and target timezones. -/
theorem C3_convert_tz_eval (env : Df.Env) (a1 a2 a3 : Df.ProjectExpression)
    (record : List Df.DataType) (v1 v2 v3 : Df.CowD) (c1 c2 c3 : Df.DataType)
    (h1 : Df.eval env a1 record = .ok v1)
    (h2 : Df.eval env a2 record = .ok v2)
    (h3 : Df.eval env a3 record = .ok v3)
    (hc1 : env.coerce v1.val .timestamp = .ok c1)
    (hc2 : env.coerce v2.val .text = .ok c2)
    (hc3 : env.coerce v3.val .text = .ok c3) :
    ((Df.eval env (.call (.convertTZ a1 a2 a3)) record).isOk = true) ∧
    (env.parseTz (env.dtToStr c2) = Option.none →
      Df.eval env (.call (.convertTZ a1 a2 a3)) record = .ok (.owned .none)) ∧
    (∀ tzs, env.parseTz (env.dtToStr c2) = some tzs →
      env.parseTz (env.dtToStr c3) = Option.none →
      Df.eval env (.call (.convertTZ a1 a2 a3)) record = .ok (.owned .none)) ∧
    (∀ tzs tzt, env.parseTz (env.dtToStr c2) = some tzs →
      env.parseTz (env.dtToStr c3) = some tzt →
      (env.fromLocalDatetime tzs (env.dtToNaiveDateTime c1) = .nothing ∨
        ∃ x y, env.fromLocalDatetime tzs (env.dtToNaiveDateTime c1) = .ambiguous x y) →
      Df.eval env (.call (.convertTZ a1 a2 a3)) record = .ok (.owned .none)) ∧
    (∀ tzs tzt dt, env.parseTz (env.dtToStr c2) = some tzs →
      env.parseTz (env.dtToStr c3) = some tzt →
      env.fromLocalDatetime tzs (env.dtToNaiveDateTime c1) = .single dt →
      Df.eval env (.call (.convertTZ a1 a2 a3)) record =
        .ok (.owned (.timestamp (env.withTimezoneNaiveLocal dt tzt)))) := by
  have key : Df.eval env (.call (.convertTZ a1 a2 a3)) record =
      match Df.convert_tz env (env.dtToNaiveDateTime c1) (env.dtToStr c2) (env.dtToStr c3) with
      | .ok v => .ok (.owned (.timestamp v))
      | .error _ => .ok (.owned .none) := by
    simp [Df.eval, h1, h2, h3, hc1, hc2, hc3, Bind.bind, Except.bind]
  refine ⟨?_, ?_, ?_, ?_, ?_⟩
  · rw [key]
    cases hcv : Df.convert_tz env (env.dtToNaiveDateTime c1) (env.dtToStr c2) (env.dtToStr c3) <;>
      simp [Except.isOk, Except.toBool]
  · intro hp
    rw [key]
    simp [Df.convert_tz, hp]
  · intro tzs hps hpt
    rw [key]
    simp [Df.convert_tz, hps, hpt]
  · intro tzs tzt hps hpt hlr
    rw [key]
    rcases hlr with hlr | ⟨x, y, hlr⟩ <;> simp [Df.convert_tz, hps, hpt, hlr]
  · intro tzs tzt dt hps hpt hlr
    rw [key]
    simp [Df.convert_tz, hps, hpt, hlr]

/-- C3 witness: converting a literal timestamp between two parsable timezones
in the concrete test environment returns the converted timestamp, and the call
is not an error. -/
theorem C3_convert_tz_eval_witness :
    Df.eval Df.testEnv
        (.call (.convertTZ (.literal (.timestamp ⟨5⟩)) (.literal (.text "UTC"))
          (.literal (.text "UTC")))) [] =
      .ok (.owned (.timestamp ⟨5⟩)) ∧
    (Df.eval Df.testEnv
        (.call (.convertTZ (.literal (.timestamp ⟨5⟩)) (.literal (.text "UTC"))
          (.literal (.text "UTC")))) []).isOk = true := by
  have h := C3_convert_tz_eval Df.testEnv (.literal (.timestamp ⟨5⟩)) (.literal (.text "UTC"))
    (.literal (.text "UTC")) [] (.owned (.timestamp ⟨5⟩)) (.owned (.text "UTC"))
    (.owned (.text "UTC")) (.timestamp ⟨5⟩) (.text "UTC") (.text "UTC")
    rfl rfl rfl (by decide) (by decide) (by decide)
  refine ⟨?_, h.1⟩
  have h5 := h.2.2.2.2 ⟨0⟩ ⟨0⟩ ⟨5⟩ (by decide) (by decide) rfl
  simpa using h5

/-- C4 (amended): for convert_tz, dayofweek, month and timediff, a failed
coercion of an argument to the type the builtin requires makes the whole call
evaluate to Ok(null) rather than an error (for timediff, failure means neither
the Timestamp nor the Time coercion succeeds); ifnull coerces nothing.  The
claim does not extend to addtime, which substitutes null for an uncoercible
argument and then produces a non-null time result (see the counterexample). -/
theorem C4_coercion_failure_null (env : Df.Env) :
    (∀ a1 a2 a3 record (v1 v2 v3 : Df.CowD),
      Df.eval env a1 record = .ok v1 → Df.eval env a2 record = .ok v2 →
      Df.eval env a3 record = .ok v3 →
      env.coerce v1.val .timestamp = .error () →
      Df.eval env (.call (.convertTZ a1 a2 a3)) record = .ok (.owned .none)) ∧
    (∀ a1 a2 a3 record (v1 v2 v3 : Df.CowD) (c1 : Df.DataType),
      Df.eval env a1 record = .ok v1 → Df.eval env a2 record = .ok v2 →
      Df.eval env a3 record = .ok v3 →
      env.coerce v1.val .timestamp = .ok c1 →
      env.coerce v2.val .text = .error () →
      Df.eval env (.call (.convertTZ a1 a2 a3)) record = .ok (.owned .none)) ∧
    (∀ a1 a2 a3 record (v1 v2 v3 : Df.CowD) (c1 c2 : Df.DataType),
      Df.eval env a1 record = .ok v1 → Df.eval env a2 record = .ok v2 →
      Df.eval env a3 record = .ok v3 →
      env.coerce v1.val .timestamp = .ok c1 →
      env.coerce v2.val .text = .ok c2 →
      env.coerce v3.val .text = .error () →
      Df.eval env (.call (.convertTZ a1 a2 a3)) record = .ok (.owned .none)) ∧
    (∀ a record (v : Df.CowD),
      Df.eval env a record = .ok v →
      env.coerce v.val .date = .error () →
      Df.eval env (.call (.dayOfWeek a)) record = .ok (.owned .none)) ∧
    (∀ a record (v : Df.CowD),
      Df.eval env a record = .ok v →
      env.coerce v.val .date = .error () →
      Df.eval env (.call (.month a)) record = .ok (.owned .none)) ∧
    (∀ a1 a2 record (v1 v2 : Df.CowD),
      Df.eval env a1 record = .ok v1 → Df.eval env a2 record = .ok v2 →
      env.coerce v1.val .timestamp = .error () →
      env.coerce v1.val .time = .error () →
      Df.eval env (.call (.timediff a1 a2)) record = .ok (.owned .none)) ∧
    (∀ a1 a2 record (v1 v2 : Df.CowD),
      Df.eval env a1 record = .ok v1 → Df.eval env a2 record = .ok v2 →
      env.coerce v2.val .timestamp = .error () →
      env.coerce v2.val .time = .error () →
      Df.eval env (.call (.timediff a1 a2)) record = .ok (.owned .none)) := by
  refine ⟨?_, ?_, ?_, ?_, ?_, ?_, ?_⟩
  · intro a1 a2 a3 record v1 v2 v3 h1 h2 h3 hc1
    simp [Df.eval, h1, h2, h3, hc1, Bind.bind, Except.bind]
  · intro a1 a2 a3 record v1 v2 v3 c1 h1 h2 h3 hc1 hc2
    simp [Df.eval, h1, h2, h3, hc1, hc2, Bind.bind, Except.bind]
  · intro a1 a2 a3 record v1 v2 v3 c1 c2 h1 h2 h3 hc1 hc2 hc3
    simp [Df.eval, h1, h2, h3, hc1, hc2, hc3, Bind.bind, Except.bind]
  · intro a record v h hc
    simp [Df.eval, h, hc, Bind.bind, Except.bind]
  · intro a record v h hc
    simp [Df.eval, h, hc, Bind.bind, Except.bind]
  · intro a1 a2 record v1 v2 h1 h2 hct hcm
    have ht1 : Df.getTimeOrDefault env v1.val = .none := by
      simp [Df.getTimeOrDefault, hct, hcm]
    simp [Df.eval, h1, h2, Bind.bind, Except.bind, ht1, Df.DataType.is_none]
  · intro a1 a2 record v1 v2 h1 h2 hct hcm
    have ht2 : Df.getTimeOrDefault env v2.val = .none := by
      simp [Df.getTimeOrDefault, hct, hcm]
    cases hsql : (Df.getTimeOrDefault env v1.val).sql_type <;>
      simp [Df.eval, h1, h2, Bind.bind, Except.bind, ht2, hsql, Df.DataType.sql_type]

/-- C4 witness: a month call on the uncoercible text value evaluates to null
in the concrete test environment. -/
theorem C4_coercion_failure_null_witness :
    Df.testEnv.coerce (.text "bad") .date = .error () ∧
    Df.eval Df.testEnv (.call (.month (.literal (.text "bad")))) [] = .ok (.owned .none) := by
  refine ⟨by decide, ?_⟩
  exact (C4_coercion_failure_null Df.testEnv).2.2.2.2.1 (.literal (.text "bad")) []
    (.owned (.text "bad")) rfl (by decide)

/-- C4 counterexample: for addtime, a second argument whose coercion fails
both to Timestamp and to Time does not make the call null — with a datetime
first argument the result is a non-null timestamp, refuting the claim that
every builtin yields Ok(null) on argument coercion failure. -/
theorem C4_counterexample :
    Df.testEnv.coerce (.text "bad") .timestamp = .error () ∧
    Df.testEnv.coerce (.text "bad") .time = .error () ∧
    Df.eval Df.testEnv
        (.call (.addtime (.literal (.timestamp ⟨0⟩)) (.literal (.text "bad")))) [] =
      .ok (.owned (.timestamp ⟨0⟩)) ∧
    (Except.ok (Df.CowD.owned (Df.DataType.timestamp ⟨0⟩)) ≠
      (.ok (.owned .none) : Except Df.EvalError Df.CowD)) := by
  exact ⟨by decide, by decide, by decide, by decide⟩

/-- C6: a shard merger or reader node is always assigned the fresh domain (the
current ndomains counter, which is then advanced), so it shares a domain with
no node whose domain was assigned earlier — all of which lie below the
counter. -/
theorem C6_fresh_for_merger_reader (g : Assign.Graph) (restr : Assign.RestrMap)
    (node nd : Nat)
    (h : (g.node node).isShardMerger = true ∨ (g.node node).isReader = true) :
    Assign.assignNode g restr node nd = (nd, nd + 1) ∧
    ∀ j d, (g.node j).domain = some d → d < nd →
      d ≠ (Assign.assignNode g restr node nd).1 := by
  have heq : Assign.assignNode g restr node nd = (nd, nd + 1) := by
    rcases h with h | h
    · simp [Assign.assignNode, h, Assign.nextDomain]
    · by_cases hm : (g.node node).isShardMerger
      · simp [Assign.assignNode, hm, Assign.nextDomain]
      · simp [Assign.assignNode, hm, h, Assign.nextDomain]
  refine ⟨heq, ?_⟩
  intro j d _ hlt
  rw [heq]
  simp
  omega

/-- C6 witness: an isolated reader with counter 3 gets domain 3, below which
any previously assigned domain must differ from it. -/
theorem C6_fresh_for_merger_reader_witness :
    Assign.assignNode Assign.readerGraph [] 0 3 = (3, 4) ∧
    ∀ j d, (Assign.readerGraph.node j).domain = some d → d < 3 →
      d ≠ (Assign.assignNode Assign.readerGraph [] 0 3).1 :=
  C6_fresh_for_merger_reader Assign.readerGraph [] 0 3 (Or.inr (by decide))

/-- Helper: a hit of the parents loop comes from a parent in the list that is
neither a sharder nor the source, carries exactly the returned domain, and
passes the a-b-a check. -/
theorem parentLoop_some (g : Assign.Graph) (node : Nat) (l : List Nat) (d : Nat)
    (h : Assign.parentLoop g node l = some d) :
    ∃ p ∈ l, (g.node p).isSharder = false ∧ (g.node p).isSource = false ∧
      (g.node p).domain = some d ∧ Assign.abaCheck g node d = false := by
  induction l with
  | nil => simp [Assign.parentLoop] at h
  | cons p rest ih =>
    simp only [Assign.parentLoop] at h
    split at h
    · obtain ⟨q, hq, hp⟩ := ih h
      exact ⟨q, List.mem_cons_of_mem _ hq, hp⟩
    · rename_i hsh
      split at h
      · obtain ⟨q, hq, hp⟩ := ih h
        exact ⟨q, List.mem_cons_of_mem _ hq, hp⟩
      · rename_i hsrc
        split at h
        · obtain ⟨q, hq, hp⟩ := ih h
          exact ⟨q, List.mem_cons_of_mem _ hq, hp⟩
        · rename_i cand hdom
          split at h
          · obtain ⟨q, hq, hp⟩ := ih h
            exact ⟨q, List.mem_cons_of_mem _ hq, hp⟩
          · rename_i haba
            cases h
            exact ⟨p, List.mem_cons_self p rest, by simpa using hsh,
              by simpa using hsrc, hdom, by simpa using haba⟩

/-- Helper: a hit of the inner sibling scan comes from a sibling in the list
with exactly the returned domain, matching unsharded-ness, passing the a-b-a
check. -/
theorem siblingFind_some (g : Assign.Graph) (node : Nat) (l : List Nat) (d : Nat)
    (h : Assign.siblingFind g node l = some d) :
    ∃ s ∈ l, (g.node s).domain = some d ∧
      (g.node s).shardedBy.isNone = (g.node node).shardedBy.isNone ∧
      Assign.abaCheck g node d = false := by
  induction l with
  | nil => simp [Assign.siblingFind] at h
  | cons s rest ih =>
    simp only [Assign.siblingFind] at h
    split at h
    · obtain ⟨q, hq, hp⟩ := ih h
      exact ⟨q, List.mem_cons_of_mem _ hq, hp⟩
    · rename_i cand hdom
      split at h
      · obtain ⟨q, hq, hp⟩ := ih h
        exact ⟨q, List.mem_cons_of_mem _ hq, hp⟩
      · rename_i hshard
        split at h
        · obtain ⟨q, hq, hp⟩ := ih h
          exact ⟨q, List.mem_cons_of_mem _ hq, hp⟩
        · rename_i haba
          cases h
          refine ⟨s, List.mem_cons_self s rest, hdom, ?_, by simpa using haba⟩
          have hs2 : ((g.node s).shardedBy.isNone != (g.node node).shardedBy.isNone) = false := by
            simpa using hshard
          simpa using hs2

/-- Helper: a hit of the sibling fold comes from the initial value or from
some parent whose children scan found it. -/
theorem siblingFoldl_some (g : Assign.Graph) (node : Nat) (l : List Nat)
    (init : Option Nat) (d : Nat)
    (h : l.foldl
        (fun acc pni =>
          match Assign.siblingFind g node (g.childrenOf pni) with
          | some x => some x
          | Option.none => acc)
        init = some d) :
    init = some d ∨ ∃ pni ∈ l, Assign.siblingFind g node (g.childrenOf pni) = some d := by
  induction l generalizing init with
  | nil => left; simpa using h
  | cons x xs ih =>
    simp only [List.foldl] at h
    rcases ih _ h with hinit | ⟨pni, hmem, hfind⟩
    · cases hfx : Assign.siblingFind g node (g.childrenOf x) with
      | none =>
        rw [hfx] at hinit
        left
        exact hinit
      | some y =>
        rw [hfx] at hinit
        right
        refine ⟨x, List.mem_cons_self x xs, ?_⟩
        rw [hfx]
        exact hinit
    · right
      exact ⟨pni, List.mem_cons_of_mem _ hmem, hfind⟩

/-- C7: a node that is not a base, reader, shard merger or boundary node is
assigned either the domain of a non-sharder, non-source parent that passes the
a-b-a check; or — when the parents loop found nothing — the domain of a
sibling with matching unsharded-ness passing the same check; or — when both
searches fail — a fresh domain. -/
theorem C7_other_node (g : Assign.Graph) (restr : Assign.RestrMap) (node nd : Nat)
    (hm : (g.node node).isShardMerger = false)
    (hr : (g.node node).isReader = false)
    (hb : (g.node node).isBase = false)
    (hbd : (g.node node).name.startsWith "BOUNDARY_" = false) :
    (∃ p ∈ g.parentsOf node,
        (g.node p).isSharder = false ∧ (g.node p).isSource = false ∧
        (g.node p).domain = some (Assign.assignNode g restr node nd).1 ∧
        Assign.abaCheck g node (Assign.assignNode g restr node nd).1 = false ∧
        (Assign.assignNode g restr node nd).2 = nd) ∨
    (Assign.parentLoop g node (g.parentsOf node) = Option.none ∧
      ∃ pni ∈ g.parentsOf node, ∃ s ∈ g.childrenOf pni,
        (g.node s).domain = some (Assign.assignNode g restr node nd).1 ∧
        (g.node s).shardedBy.isNone = (g.node node).shardedBy.isNone ∧
        Assign.abaCheck g node (Assign.assignNode g restr node nd).1 = false ∧
        (Assign.assignNode g restr node nd).2 = nd) ∨
    (Assign.parentLoop g node (g.parentsOf node) = Option.none ∧
      Assign.siblingLoop g node (g.parentsOf node) = Option.none ∧
      Assign.assignNode g restr node nd = (nd, nd + 1)) := by
  have hA : Assign.assignNode g restr node nd =
      (match Assign.parentLoop g node (g.parentsOf node) with
       | some d => (d, nd)
       | Option.none =>
         match Assign.siblingLoop g node (g.parentsOf node) with
         | some d => (d, nd)
         | Option.none => (nd, nd + 1)) := by
    simp [Assign.assignNode, hm, hr, hb, hbd, Assign.nextDomain]
  cases hp : Assign.parentLoop g node (g.parentsOf node) with
  | some d =>
    left
    have hA2 : Assign.assignNode g restr node nd = (d, nd) := by rw [hA, hp]
    obtain ⟨p, hmem, hsh, hsrc, hdom, haba⟩ := parentLoop_some g node _ d hp
    exact ⟨p, hmem, hsh, hsrc, by rw [hA2]; exact hdom, by rw [hA2]; exact haba, by rw [hA2]⟩
  | none =>
    cases hs : Assign.siblingLoop g node (g.parentsOf node) with
    | some d =>
      right; left
      have hA2 : Assign.assignNode g restr node nd = (d, nd) := by rw [hA, hp, hs]
      have hfold := hs
      simp only [Assign.siblingLoop] at hfold
      rcases siblingFoldl_some g node _ _ d hfold with hinit | ⟨pni, hmem, hfind⟩
      · cases hinit
      · obtain ⟨s, hsmem, hdom, hshard, haba⟩ := siblingFind_some g node _ d hfind
        exact ⟨rfl, pni, hmem, s, hsmem, by rw [hA2]; exact hdom, hshard,
          by rw [hA2]; exact haba, by rw [hA2]⟩
    | none =>
      right; right
      exact ⟨rfl, rfl, by rw [hA, hp, hs]⟩

/-- C7 witness: an isolated internal node has no parent or sibling domain and
receives a fresh domain. -/
theorem C7_other_node_witness :
    Assign.parentLoop Assign.loneGraph 0 (Assign.loneGraph.parentsOf 0) = Option.none ∧
    Assign.siblingLoop Assign.loneGraph 0 (Assign.loneGraph.parentsOf 0) = Option.none ∧
    Assign.assignNode Assign.loneGraph [] 0 0 = (0, 1) := by
  rcases C7_other_node Assign.loneGraph [] 0 0 (by decide) (by decide) (by decide) (by decide)
    with h | h | h
  · obtain ⟨p, hp, -⟩ := h
    simp [Assign.Graph.parentsOf, Assign.loneGraph] at hp
  · obtain ⟨-, p, hp, -⟩ := h
    simp [Assign.Graph.parentsOf, Assign.loneGraph] at hp
  · exact h

/-- C8 (amended): for a base node, when the friendly-base search succeeds the
found domain is reused exactly when the per-shard restriction check passes —
which requires equal worker_volume labels when both nodes restrict a shard
and also fails when the new node restricts a shard the friendly base does not
— and a fresh domain is allocated otherwise, as well as when no friendly base
exists.  The claim that compatibility only constrains shards both nodes
restrict does not hold (see the counterexample). -/
theorem C8_base_friendly (g : Assign.Graph) (restr : Assign.RestrMap) (node nd : Nat)
    (hm : (g.node node).isShardMerger = false)
    (hr : (g.node node).isReader = false)
    (hb : (g.node node).isBase = true) :
    (∀ fbi, Assign.upWalk g node (Assign.walkFuel g)
        (Assign.downWalk g (Assign.walkFuel g) (g.childrenOf node) []) = some fbi →
      (Assign.assignNode g restr node nd =
        if Assign.compatibleRestr restr (g.node node) (g.node fbi) then
          ((g.node fbi).domain.getD 0, nd)
        else (nd, nd + 1)) ∧
      (Assign.compatibleRestr restr (g.node node) (g.node fbi) = true ↔
        ∀ i < min ((g.node node).shardedBy.getD 1) ((g.node fbi).shardedBy.getD 1),
          Assign.restrCompat (Assign.lookupRestr restr (g.node node).name i)
            (Assign.lookupRestr restr (g.node fbi).name i) = true)) ∧
    (Assign.upWalk g node (Assign.walkFuel g)
        (Assign.downWalk g (Assign.walkFuel g) (g.childrenOf node) []) = Option.none →
      Assign.assignNode g restr node nd = (nd, nd + 1)) := by
  constructor
  · intro fbi hup
    constructor
    · simp [Assign.assignNode, hm, hr, hb, hup, Assign.nextDomain]
    · simp [Assign.compatibleRestr, List.all_eq_true, List.mem_range]
  · intro hup
    simp [Assign.assignNode, hm, hr, hb, hup, Assign.nextDomain]

/-- C8 witness: a base with no surrounding nodes finds no friendly base and is
given a fresh domain. -/
theorem C8_base_friendly_witness :
    Assign.assignNode Assign.soloBaseGraph [] 0 2 = (2, 3) :=
  (C8_base_friendly Assign.soloBaseGraph [] 0 2 (by decide) (by decide) (by decide)).2
    (by decide)

/-- C8 counterexample: base B restricts shard 0 while the friendly base A is
unrestricted; under the claim this is compatible (no shard is restricted by
both), yet the code allocates a fresh domain 5 instead of reusing the A
domain 0. -/
theorem C8_counterexample :
    Assign.upWalk Assign.baseGraph 1 (Assign.walkFuel Assign.baseGraph)
        (Assign.downWalk Assign.baseGraph (Assign.walkFuel Assign.baseGraph)
          (Assign.baseGraph.childrenOf 1) []) = some 0 ∧
    Assign.specCompatible Assign.baseRestr (Assign.baseGraph.node 1)
      (Assign.baseGraph.node 0) = true ∧
    (Assign.baseGraph.node 0).domain = some 0 ∧
    Assign.assignNode Assign.baseGraph Assign.baseRestr 1 5 = (5, 6) ∧
    (5 : Nat) ≠ 0 := by
  exact ⟨by decide, by decide, by decide, by decide, by decide⟩
